import Mathlib

/-!
Shallow embedding of the incremental attendance synchronization engine
(src/attendance/sync/mssql.py) and proofs about it.

Modelling conventions:
- Timestamps (Python `datetime`) are `Int` microseconds since the Unix epoch.
  A `datetime` has microsecond resolution; subtraction of two datetimes
  followed by `.total_seconds()` compared against the integer 1800 is
  equivalent to comparing the microsecond difference against 1800 * 10^6.
- Formatting with `strftime("%Y-%m-%d %H:%M:%S")` truncates away the
  microsecond field, i.e. floors the timestamp to a whole second; with a
  positive divisor, `Int` division `/` in Lean is exactly that floor.
- The external collaborators (employee lookup by device id, the set of
  reachable MSSQL tables with their rows) are passed in as functions;
  the persisted Employee Checkin store is an explicit list of records.
- Python string methods `.upper()` and `.lower()` are modelled character
  by character over the underlying character list (ASCII case mapping,
  which is all the engine ever applies them to).
-/

namespace AttendanceSync

/-- Microseconds in one second. -/
def usecPerSec : Int := 1000000

/-- Microseconds in one day, used to model `timedelta(days=n)`. -/
def usecPerDay : Int := 86400 * usecPerSec

/-- Debounce window of the guard: 30 minutes, in microseconds. -/
def debounce_usec : Int := 1800 * usecPerSec

/-- Constant MIN_MSSQL_DATETIME = datetime(1753, 1, 1), the MSSQL minimum
valid datetime, expressed in microseconds since the Unix epoch
(79257 days before 1970-01-01). -/
def MIN_MSSQL_DATETIME : Int := -6847804800 * usecPerSec

/-- Truncation performed by strftime with format string
"%Y-%m-%d %H:%M:%S": the microsecond field is dropped, flooring the
timestamp to a whole second. -/
def truncToSecond (t : Int) : Int := (t / usecPerSec) * usecPerSec

/-- A timestamp representable by the stored cursor string
"YYYY-MM-DD HH:MM:SS", i.e. a whole number of seconds. -/
abbrev secAligned (t : Int) : Prop := t % usecPerSec = 0

/-- Model of the Python str.upper method (ASCII case mapping). -/
def pyUpper (s : String) : String := ⟨s.data.map Char.toUpper⟩

/-- Model of the Python str.lower method (ASCII case mapping). -/
def pyLower (s : String) : String := ⟨s.data.map Char.toLower⟩

/-- One persisted Employee Checkin record: employee docname, punch time
and log_type ("IN" or "OUT"). -/
structure Checkin where
  employee : String
  time : Int
  log_type : String
deriving DecidableEq

/-- One fetched device log row; the engine reads row[3] = UserId,
row[4] = LogDate and row[7] = C1 (the raw direction hint, possibly NULL). -/
structure LogRow where
  user_id : String
  log_date : Int
  c1 : Option String
deriving DecidableEq

/-- Model of frappe.db.exists("Employee Checkin", filters on employee and
time): true when some persisted record has this exact employee and time. -/
def checkinExists (db : List Checkin) (e : String) (t : Int) : Bool :=
  db.any fun c => decide (c.employee = e ∧ c.time = t)

/-- One step of scanning the store for the most recent record of an
employee: keep the candidate with the strictly larger punch time. -/
def lastStep (e : String) (acc : Option Checkin) (c : Checkin) : Option Checkin :=
  if c.employee = e then
    match acc with
    | none => some c
    | some b => if b.time < c.time then some c else some b
  else acc

/-- Model of frappe.db.get_value("Employee Checkin", filter on employee,
order_by time descending): the record of this employee with the maximal
punch time, none when the employee has no record. -/
def lastCheckin (db : List Checkin) (e : String) : Option Checkin :=
  db.foldl (lastStep e) none

/-- Model of guess_checkin_type. The employees map models
frappe.db.get_value("Employee", filter on attendance_device_id).
The device supplied hint (parameter suggested_direction in the source)
is accepted but never consulted: the trusting code path is commented out
in the source. -/
def guess_checkin_type (employees : String → Option String) (db : List Checkin)
    (employee_device_id : String) (_suggested_direction : String) : String :=
  match employees employee_device_id with
  | none => "IN"
  | some emp_doc_name =>
    match lastCheckin db emp_doc_name with
    | some last => if last.log_type = "IN" then "OUT" else "IN"
    | none => "IN"

/-- Model of create_employee_checkin: returns the new checkin store and
whether a record was created. Skips (creating nothing) when log_datetime
is missing, when a record with the same (employee, time) already exists,
or when the most recent record of the employee is within the debounce
window, measured as this timestamp minus the previous one. -/
def create_employee_checkin (db : List Checkin) (employee_id : String)
    (log_datetime : Option Int) (direction : String) : List Checkin × Bool :=
  match log_datetime with
  | none => (db, false)
  | some t =>
    if checkinExists db employee_id t then (db, false)
    else
      match lastCheckin db employee_id with
      | some last =>
        if t - last.time < debounce_usec then (db, false)
        else (db ++ [⟨employee_id, t, pyUpper direction⟩], true)
      | none => (db ++ [⟨employee_id, t, pyUpper direction⟩], true)

/-- Watermark update of the processing loop: replace the running maximum
when it is absent or strictly smaller than the new log date. -/
def maxUpd (m : Option Int) (t : Int) : Option Int :=
  match m with
  | none => some t
  | some m0 => if m0 < t then some t else some m0

/-- State threaded through the per-row processing loop of attendance():
the checkin store, the running maximum log date, and the two counters. -/
structure ProcState where
  db : List Checkin
  max_log_date : Option Int
  checkin_count : Nat
  skipped_count : Nat
deriving DecidableEq

/-- One iteration of the row loop in attendance(): update the watermark
candidate, infer the direction, resolve the employee (skipping the row
when no employee matches the device user id), then attempt creation. -/
def process_row (employees : String → Option String) (s : ProcState)
    (row : LogRow) : ProcState :=
  let max' := maxUpd s.max_log_date row.log_date
  let direction := guess_checkin_type employees s.db row.user_id
    (pyLower (row.c1.getD ""))
  match employees row.user_id with
  | none =>
    { s with max_log_date := max', skipped_count := s.skipped_count + 1 }
  | some employee_id =>
    let res := create_employee_checkin s.db employee_id (some row.log_date) direction
    if res.2 then
      { db := res.1, max_log_date := max',
        checkin_count := s.checkin_count + 1, skipped_count := s.skipped_count }
    else
      { db := res.1, max_log_date := max',
        checkin_count := s.checkin_count, skipped_count := s.skipped_count + 1 }

/-- The full row loop of attendance() over a fetched batch. -/
def process_logs (employees : String → Option String) (db : List Checkin)
    (logs : List LogRow) : ProcState :=
  logs.foldl (process_row employees) ⟨db, none, 0, 0⟩

/-- Insertion into a list sorted ascending by log date. -/
def insertLog (r : LogRow) : List LogRow → List LogRow
  | [] => [r]
  | x :: xs => if r.log_date < x.log_date then r :: x :: xs else x :: insertLog r xs

/-- Sorting by log date ascending, modelling ORDER BY LogDate ASC. -/
def sortLogs : List LogRow → List LogRow
  | [] => []
  | x :: xs => insertLog x (sortLogs xs)

/-- Model of fetch_all_logs: rows of the table with LogDate strictly
greater than the cursor, ordered ascending by LogDate. -/
def fetch_all_logs (rows : List LogRow) (last_sync : Int) : List LogRow :=
  sortLogs (rows.filter fun r => decide (last_sync < r.log_date))

/-- Fallback period computation of attendance(): previous month, with the
year rollover from month 1 to month 12 of the previous year. -/
def fallback_period (current_month current_year : Int) : Int × Int :=
  if current_month = 1 then (12, current_year - 1)
  else (current_month - 1, current_year)

/-- Source table identifier for a database and a month/year period. -/
def table_name (database : String) (month year : Int) : String :=
  "[" ++ database ++ "].[dbo].[DeviceLogs_" ++ toString month ++ "_" ++
    toString year ++ "]"

/-- Probe and fetch steps of attendance(). The tables map sends a table
identifier to its rows when the probe query succeeds and to none when it
fails; the current period table is probed first, the fallback period
table second, and none means both probes failed and the run aborts. -/
def resolve_and_fetch (tables : String → Option (List LogRow))
    (database : String) (month year : Int) (last_sync : Int) :
    Option (List LogRow) :=
  let fb := fallback_period month year
  match tables (table_name database month year) with
  | some rows => some (fetch_all_logs rows last_sync)
  | none =>
    match tables (table_name database fb.1 fb.2) with
    | some rows => some (fetch_all_logs rows last_sync)
    | none => none

/-- Stored last_sync_time value as validate_or_default_sync_time receives
it: a datetime instance, a truthy string that parses with format
"%Y-%m-%d %H:%M:%S" to a given timestamp, a truthy string that fails to
parse (ValueError), or a falsy value (None or empty). -/
inductive CursorVal where
  | dtVal (t : Int)
  | strOk (t : Int)
  | strBad
  | noneV
deriving DecidableEq

/-- Model of validate_or_default_sync_time: pass a datetime through,
parse a string, fall back to now minus default_days days when the value
is falsy or fails to parse, then clamp the result up to
MIN_MSSQL_DATETIME when it is below it. -/
def validate_or_default_sync_time (now : Int) (dt_val : CursorVal)
    (default_days : Int) : Int :=
  let result :=
    match dt_val with
    | .dtVal t => t
    | .strOk t => t
    | .strBad => now - default_days * usecPerDay
    | .noneV => now - default_days * usecPerDay
  if result < MIN_MSSQL_DATETIME then MIN_MSSQL_DATETIME else result

/-- External collaborators and clock of one run of attendance():
the employee lookup, the reachable tables with their rows, the database
name and the current month/year/now of the wall clock. -/
structure RunEnv where
  employees : String → Option String
  tables : String → Option (List LogRow)
  database : String
  month : Int
  year : Int
  now : Int

/-- Persistent state across runs: the checkin store and the persisted
sync cursor. -/
structure RunState where
  db : List Checkin
  cursor : Int
deriving DecidableEq

/-- Model of one completed invocation of attendance() starting from a
valid persisted cursor: sanitize the cursor, resolve and fetch the
source rows, abort (leaving everything unchanged) when both probes fail
or when no rows are returned; otherwise process every row and set the
cursor to the maximum observed log date, truncated to a whole second by
the strftime formatting of the stored string. -/
def attendance (env : RunEnv) (db : List Checkin) (cursor : Int) : RunState :=
  let last_sync := validate_or_default_sync_time env.now (.dtVal cursor) 2
  match resolve_and_fetch env.tables env.database env.month env.year last_sync with
  | none => ⟨db, cursor⟩
  | some logs =>
    if logs.isEmpty then ⟨db, cursor⟩
    else
      let s := process_logs env.employees db logs
      match s.max_log_date with
      | none => ⟨s.db, cursor⟩
      | some m => ⟨s.db, truncToSecond m⟩

/-- One scheduled run: either it aborts somewhere before the commit
(configuration, connection or table failure, or an unexpected exception
during the row loop) leaving the persisted state untouched, or it
completes under some environment. -/
inductive RunSpec where
  | aborted
  | completed (env : RunEnv)

/-- Effect of one scheduled run on the persisted state. -/
def run_step (st : RunState) (r : RunSpec) : RunState :=
  match r with
  | .aborted => st
  | .completed env => attendance env st.db st.cursor

/-- Fields of the MSSQL Attendance Settings single doctype read by
get_mssql_config. A none field models a NULL value; an empty string is
also falsy for the completeness check. -/
structure MSSQLSettings where
  db_host : Option String
  db_port : Option String
  db_user : Option String
  db_password : Option String
  db_name : Option String
deriving DecidableEq

/-- Python truthiness of an optional string field. -/
def truthy : Option String → Bool
  | none => false
  | some s => decide (s ≠ "")

/-- Characters stripped by Python int() around the digits. -/
def isPySpace (c : Char) : Bool :=
  c = ' ' || c = '\t' || c = '\n' || c = '\r' || c = '\x0b' || c = '\x0c'

/-- Strip leading and trailing whitespace from a character list. -/
def stripChars (l : List Char) : List Char :=
  ((l.dropWhile isPySpace).reverse.dropWhile isPySpace).reverse

/-- Decimal value of a nonempty all-digit character list. -/
def digitsVal : List Char → Option Nat
  | [] => none
  | cs => cs.foldl (fun acc c =>
      match acc with
      | none => none
      | some n => if c.isDigit then some (n * 10 + (c.toNat - 48)) else none)
      (some 0)

/-- Model of the Python int() constructor on a string: optional
whitespace, an optional sign, then decimal digits; none models the
ValueError raised on anything else. -/
def pyInt? (s : String) : Option Int :=
  match stripChars s.data with
  | '-' :: rest => (digitsVal rest).map fun n => -(n : Int)
  | '+' :: rest => (digitsVal rest).map fun n => (n : Int)
  | cs => (digitsVal cs).map fun n => (n : Int)

/-- Exception escaping get_mssql_config: when any connection parameter is
falsy, the error message f-string evaluates the name `missing`, which is
bound nowhere in the module, so Python raises NameError before anything
is logged. -/
inductive PyError where
  | nameError_missing
deriving DecidableEq

/-- Validated MSSQL connection parameters. -/
structure MSSQLConfig where
  host : String
  port : Int
  user : String
  password : String
  dbname : String
deriving DecidableEq

/-- Model of get_mssql_config. When all five parameters are truthy and
the port parses as an integer it returns the configuration; when the
port fails to parse the ValueError is caught, logged, and none is
returned; when any parameter is falsy the function raises NameError
while building the log message, because the f-string references the
undefined name `missing`. -/
def get_mssql_config (c : MSSQLSettings) : Except PyError (Option MSSQLConfig) :=
  if truthy c.db_host && truthy c.db_port && truthy c.db_user &&
      truthy c.db_password && truthy c.db_name then
    match pyInt? (c.db_port.getD "") with
    | none => .ok none
    | some p => .ok (some ⟨c.db_host.getD "", p, c.db_user.getD "",
        c.db_password.getD "", c.db_name.getD ""⟩)
  else
    .error .nameError_missing

end AttendanceSync

namespace AttendanceSync

/-! Helper facts about the embedding. -/

theorem debounce_usec_pos : 0 < debounce_usec := by decide

/-- A concrete employee lookup used by the specification witnesses:
every device id maps to the same employee. -/
def empsW : String → Option String := fun _ => some "EMP-0001"

/-! Claims. -/

/-- Claim C2 (code bug): when any connection parameter is missing, the
source does not log and return cleanly; building the error message
evaluates the undefined name `missing` and raises NameError, which is
uncaught in attendance() and therefore propagates to the scheduler.
The theorem evaluates get_mssql_config at a failing input (host absent)
and, for contrast, at an unparsable-port input, where the run does abort
cleanly with a logged error as the claim states. -/
theorem C2_config_missing_raises :
    get_mssql_config ⟨none, some "1433", some "user", some "pw", some "db"⟩ =
      .error .nameError_missing ∧
    get_mssql_config ⟨some "host", some "not-an-int", some "user", some "pw",
      some "db"⟩ = .ok none := by
  exact ⟨rfl, rfl⟩

/-- Claim C4: direction inference for a matched employee is a strict
two-state alternation on the most recent prior checkin direction: no
prior record or most recent OUT infers IN, most recent IN infers OUT,
and the raw device direction hint never influences the result. -/
theorem C4_direction_alternation (emps : String → Option String)
    (devid emp : String) (hm : emps devid = some emp)
    (db0 dbI dbO : List Checkin) (lI lO : Checkin)
    (h0 : lastCheckin db0 emp = none)
    (hI : lastCheckin dbI emp = some lI) (hIt : lI.log_type = "IN")
    (hO : lastCheckin dbO emp = some lO) (hOt : lO.log_type = "OUT")
    (hint : String) :
    guess_checkin_type emps db0 devid hint = "IN" ∧
    guess_checkin_type emps dbI devid hint = "OUT" ∧
    guess_checkin_type emps dbO devid hint = "IN" ∧
    ∀ (db : List Checkin) (hint1 hint2 : String),
      guess_checkin_type emps db devid hint1 =
        guess_checkin_type emps db devid hint2 := by
  refine ⟨?_, ?_, ?_, fun _ _ _ => rfl⟩
  · simp [guess_checkin_type, hm, h0]
  · simp [guess_checkin_type, hm, hI, hIt]
  · simp [guess_checkin_type, hm, hO, hOt]

/-- Witness for C4 at concrete inputs: a lookup that matches, an empty
history, a history ending in IN and a history ending in OUT. -/
theorem C4_direction_alternation_witness :
    empsW "u1" = some "EMP-0001" ∧
    lastCheckin [] "EMP-0001" = none ∧
    lastCheckin [⟨"EMP-0001", 0, "IN"⟩] "EMP-0001" =
      some ⟨"EMP-0001", 0, "IN"⟩ ∧
    (⟨"EMP-0001", 0, "IN"⟩ : Checkin).log_type = "IN" ∧
    lastCheckin [⟨"EMP-0001", 0, "OUT"⟩] "EMP-0001" =
      some ⟨"EMP-0001", 0, "OUT"⟩ ∧
    (⟨"EMP-0001", 0, "OUT"⟩ : Checkin).log_type = "OUT" ∧
    (guess_checkin_type empsW [] "u1" "x" = "IN" ∧
     guess_checkin_type empsW [⟨"EMP-0001", 0, "IN"⟩] "u1" "x" = "OUT" ∧
     guess_checkin_type empsW [⟨"EMP-0001", 0, "OUT"⟩] "u1" "x" = "IN" ∧
     ∀ (db : List Checkin) (hint1 hint2 : String),
       guess_checkin_type empsW db "u1" hint1 =
         guess_checkin_type empsW db "u1" hint2) :=
  ⟨by decide, by decide, by decide, by decide, by decide, by decide,
   C4_direction_alternation empsW "u1" "EMP-0001" (by decide) []
     [⟨"EMP-0001", 0, "IN"⟩] [⟨"EMP-0001", 0, "OUT"⟩]
     ⟨"EMP-0001", 0, "IN"⟩ ⟨"EMP-0001", 0, "OUT"⟩
     (by decide) (by decide) (by decide) (by decide) (by decide) "x"⟩

/-- Claim C8: a fetched row whose subject id matches no employee creates
no CheckinEvent, leaves the store and the created counter untouched,
counts as skipped, and its punch timestamp still enters the watermark
candidate. -/
theorem C8_unmatched_subject (emps : String → Option String) (s : ProcState)
    (row : LogRow) (h : emps row.user_id = none) :
    process_row emps s row =
      { s with max_log_date := maxUpd s.max_log_date row.log_date,
               skipped_count := s.skipped_count + 1 } := by
  simp [process_row, h]

/-- Witness for C8: a lookup that never matches, applied to one row. -/
theorem C8_unmatched_subject_witness :
    (fun (_ : String) => (none : Option String)) "u9" = none ∧
    process_row (fun _ => none) ⟨[], none, 0, 0⟩ ⟨"u9", 42, none⟩ =
      { db := [], max_log_date := maxUpd none 42,
        checkin_count := 0, skipped_count := 0 + 1 } :=
  ⟨rfl, C8_unmatched_subject (fun _ => none) ⟨[], none, 0, 0⟩
    ⟨"u9", 42, none⟩ rfl⟩

/-- Claim C9: cursor sanitization. A missing or unparsable stored value
defaults to now minus 2 days; every branch result is clamped up to
MIN_MSSQL_DATETIME when below it; a valid stored value at or after the
minimum passes through unchanged. -/
theorem C9_cursor_sanitization (now t u : Int)
    (hmin : MIN_MSSQL_DATETIME ≤ t) (hu : u < MIN_MSSQL_DATETIME) :
    validate_or_default_sync_time now .noneV 2 =
      (if now - 2 * usecPerDay < MIN_MSSQL_DATETIME then MIN_MSSQL_DATETIME
       else now - 2 * usecPerDay) ∧
    validate_or_default_sync_time now .strBad 2 =
      validate_or_default_sync_time now .noneV 2 ∧
    validate_or_default_sync_time now (.dtVal t) 2 = t ∧
    validate_or_default_sync_time now (.strOk t) 2 = t ∧
    validate_or_default_sync_time now (.dtVal u) 2 = MIN_MSSQL_DATETIME ∧
    validate_or_default_sync_time now (.strOk u) 2 = MIN_MSSQL_DATETIME := by
  refine ⟨rfl, rfl, ?_, ?_, ?_, ?_⟩ <;>
    simp [validate_or_default_sync_time, not_lt.mpr hmin, hu]

/-- Witness for C9 at concrete inputs around the minimum datetime. -/
theorem C9_cursor_sanitization_witness :
    MIN_MSSQL_DATETIME ≤ MIN_MSSQL_DATETIME + 1 ∧
    MIN_MSSQL_DATETIME - 1 < MIN_MSSQL_DATETIME ∧
    (validate_or_default_sync_time 0 .noneV 2 =
      (if (0 : Int) - 2 * usecPerDay < MIN_MSSQL_DATETIME then MIN_MSSQL_DATETIME
       else 0 - 2 * usecPerDay) ∧
     validate_or_default_sync_time 0 .strBad 2 =
      validate_or_default_sync_time 0 .noneV 2 ∧
     validate_or_default_sync_time 0 (.dtVal (MIN_MSSQL_DATETIME + 1)) 2 =
      MIN_MSSQL_DATETIME + 1 ∧
     validate_or_default_sync_time 0 (.strOk (MIN_MSSQL_DATETIME + 1)) 2 =
      MIN_MSSQL_DATETIME + 1 ∧
     validate_or_default_sync_time 0 (.dtVal (MIN_MSSQL_DATETIME - 1)) 2 =
      MIN_MSSQL_DATETIME ∧
     validate_or_default_sync_time 0 (.strOk (MIN_MSSQL_DATETIME - 1)) 2 =
      MIN_MSSQL_DATETIME) :=
  ⟨by decide, by decide,
   C9_cursor_sanitization 0 (MIN_MSSQL_DATETIME + 1) (MIN_MSSQL_DATETIME - 1)
     (by decide) (by decide)⟩

/-- Claim C10: a punch strictly earlier than the most recent existing
checkin of the employee, and not an exact duplicate, is skipped by the
guard with nothing created, because the signed difference is negative
and hence below the 1800 second threshold. -/
theorem C10_out_of_order_skipped (db : List Checkin) (e : String) (t : Int)
    (d : String) (l : Checkin) (hl : lastCheckin db e = some l)
    (hlt : t < l.time) (hnd : checkinExists db e t = false) :
    create_employee_checkin db e (some t) d = (db, false) := by
  have hw : t - l.time < debounce_usec := by
    simp only [debounce_usec, usecPerSec]
    omega
  simp [create_employee_checkin, hnd, hl, hw]

/-- Witness for C10: a punch one hour before the only existing checkin. -/
theorem C10_out_of_order_skipped_witness :
    lastCheckin [⟨"EMP-0001", 7200000000, "IN"⟩] "EMP-0001" =
      some ⟨"EMP-0001", 7200000000, "IN"⟩ ∧
    (3600000000 : Int) < (⟨"EMP-0001", 7200000000, "IN"⟩ : Checkin).time ∧
    checkinExists [⟨"EMP-0001", 7200000000, "IN"⟩] "EMP-0001" 3600000000 =
      false ∧
    create_employee_checkin [⟨"EMP-0001", 7200000000, "IN"⟩] "EMP-0001"
      (some 3600000000) "OUT" = ([⟨"EMP-0001", 7200000000, "IN"⟩], false) :=
  ⟨by decide, by decide, by decide,
   C10_out_of_order_skipped [⟨"EMP-0001", 7200000000, "IN"⟩] "EMP-0001"
     3600000000 "OUT" ⟨"EMP-0001", 7200000000, "IN"⟩ (by decide) (by decide)
     (by decide)⟩

/-- Evaluation fact: pyUpper fixes the string IN. -/
theorem pyUpper_IN : pyUpper "IN" = "IN" := by decide

/-- Evaluation fact: pyUpper fixes the string OUT. -/
theorem pyUpper_OUT : pyUpper "OUT" = "OUT" := by decide

/-- Claim C1 counterexample: for a single employee with no other history,
two rows exactly 1800 seconds apart yield TWO CheckinEvents, not one;
the claim asserts exactly one. -/
theorem C1_boundary_counterexample :
    ((process_logs empsW [] [⟨"u1", 0, none⟩,
        ⟨"u1", 1800 * usecPerSec, none⟩]).db).length ≠ 1 ∧
    ((process_logs empsW [] [⟨"u1", 0, none⟩,
        ⟨"u1", 1800 * usecPerSec, none⟩]).db).length = 2 := by
  decide

/-- Claim C1 as amended: the debounce boundary is exclusive, so the guard
skips exactly when the difference this timestamp minus the previous one
is strictly below 1800 seconds; consequently two rows exactly 1800
seconds apart yield two CheckinEvents, and so do two rows 1801 seconds
apart. -/
theorem C1_debounce_boundary (emps : String → Option String) (u emp : String)
    (hu : emps u = some emp) (t0 : Int) (hint : Option String)
    (db : List Checkin) (e : String) (t : Int) (d : String) (l : Checkin)
    (hne : checkinExists db e t = false) (hl : lastCheckin db e = some l) :
    (process_logs emps [] [⟨u, t0, hint⟩, ⟨u, t0 + 1800 * usecPerSec, hint⟩]).db
      = [⟨emp, t0, "IN"⟩, ⟨emp, t0 + 1800 * usecPerSec, "OUT"⟩] ∧
    (process_logs emps [] [⟨u, t0, hint⟩, ⟨u, t0 + 1801 * usecPerSec, hint⟩]).db
      = [⟨emp, t0, "IN"⟩, ⟨emp, t0 + 1801 * usecPerSec, "OUT"⟩] ∧
    ((create_employee_checkin db e (some t) d).2 = false ↔
      t - l.time < debounce_usec) := by
  refine ⟨?_, ?_, ?_⟩
  · simp [process_logs, process_row, guess_checkin_type,
      create_employee_checkin, checkinExists, lastCheckin, lastStep, maxUpd, hu,
      pyUpper_IN, pyUpper_OUT, debounce_usec, usecPerSec]
  · simp [process_logs, process_row, guess_checkin_type,
      create_employee_checkin, checkinExists, lastCheckin, lastStep, maxUpd, hu,
      pyUpper_IN, pyUpper_OUT, debounce_usec, usecPerSec]
  · simp only [create_employee_checkin, hne, hl, Bool.false_eq_true,
      if_false]
    split <;> simp_all

/-- Witness for the amended C1 at concrete inputs: a matching lookup, a
fresh pair of rows, and a store with one prior record. -/
theorem C1_debounce_boundary_witness :
    empsW "u1" = some "EMP-0001" ∧
    checkinExists [⟨"EMP-0001", 0, "IN"⟩] "EMP-0001" 1000000000 = false ∧
    lastCheckin [⟨"EMP-0001", 0, "IN"⟩] "EMP-0001" =
      some ⟨"EMP-0001", 0, "IN"⟩ ∧
    ((process_logs empsW [] [⟨"u1", 5, none⟩,
        ⟨"u1", 5 + 1800 * usecPerSec, none⟩]).db
      = [⟨"EMP-0001", 5, "IN"⟩,
         ⟨"EMP-0001", 5 + 1800 * usecPerSec, "OUT"⟩] ∧
     (process_logs empsW [] [⟨"u1", 5, none⟩,
        ⟨"u1", 5 + 1801 * usecPerSec, none⟩]).db
      = [⟨"EMP-0001", 5, "IN"⟩,
         ⟨"EMP-0001", 5 + 1801 * usecPerSec, "OUT"⟩] ∧
     ((create_employee_checkin [⟨"EMP-0001", 0, "IN"⟩] "EMP-0001"
        (some 1000000000) "OUT").2 = false ↔
       (1000000000 : Int) - (⟨"EMP-0001", 0, "IN"⟩ : Checkin).time <
         debounce_usec)) :=
  ⟨by decide, by decide, by decide,
   C1_debounce_boundary empsW "u1" "EMP-0001" (by decide) 5 none
     [⟨"EMP-0001", 0, "IN"⟩] "EMP-0001" 1000000000 "OUT"
     ⟨"EMP-0001", 0, "IN"⟩ (by decide) (by decide)⟩

/-- Claim C5: the guard skips, creating nothing, whenever the most recent
prior checkin of the employee is within 1800 seconds of the punch
timestamp, measured as this timestamp minus the previous one, for every
inferred direction; and two rows for the same employee at punch times t0
and t0 plus 1700 seconds yield exactly one CheckinEvent, the earlier
one. -/
theorem C5_debounce_within_window (db : List Checkin) (e : String) (t : Int)
    (d : String) (l : Checkin) (hl : lastCheckin db e = some l)
    (hw : t - l.time < debounce_usec)
    (emps : String → Option String) (u emp : String) (hu : emps u = some emp)
    (t0 : Int) (hint : Option String) :
    create_employee_checkin db e (some t) d = (db, false) ∧
    (process_logs emps [] [⟨u, t0, hint⟩, ⟨u, t0 + 1700 * usecPerSec, hint⟩]).db
      = [⟨emp, t0, "IN"⟩] := by
  constructor
  · by_cases hex : checkinExists db e t = true
    · simp [create_employee_checkin, hex]
    · simp only [Bool.not_eq_true] at hex
      simp [create_employee_checkin, hex, hl, hw]
  · simp [process_logs, process_row, guess_checkin_type,
      create_employee_checkin, checkinExists, lastCheckin, lastStep, maxUpd, hu,
      pyUpper_IN, pyUpper_OUT, debounce_usec, usecPerSec]

/-- Witness for C5 at concrete inputs: a punch 1700 seconds after the
only prior record, and a fresh two-row batch 1700 seconds apart. -/
theorem C5_debounce_within_window_witness :
    lastCheckin [⟨"EMP-0001", 0, "IN"⟩] "EMP-0001" =
      some ⟨"EMP-0001", 0, "IN"⟩ ∧
    (1700 * usecPerSec : Int) - (⟨"EMP-0001", 0, "IN"⟩ : Checkin).time <
      debounce_usec ∧
    empsW "u1" = some "EMP-0001" ∧
    (create_employee_checkin [⟨"EMP-0001", 0, "IN"⟩] "EMP-0001"
        (some (1700 * usecPerSec)) "OUT" = ([⟨"EMP-0001", 0, "IN"⟩], false) ∧
     (process_logs empsW [] [⟨"u1", 7, none⟩,
        ⟨"u1", 7 + 1700 * usecPerSec, none⟩]).db = [⟨"EMP-0001", 7, "IN"⟩]) :=
  ⟨by decide, by decide, by decide,
   C5_debounce_within_window [⟨"EMP-0001", 0, "IN"⟩] "EMP-0001"
     (1700 * usecPerSec) "OUT" ⟨"EMP-0001", 0, "IN"⟩ (by decide) (by decide)
     empsW "u1" "EMP-0001" (by decide) 7 none⟩

/-- Claim C7: the current period identifier is built from this month and
year and the fallback from the previous month and year with the January
rollover; when the current period probe fails the engine queries the
fallback table and returns its rows; when both probes fail the run
aborts with the cursor unchanged and no CheckinEvents created. -/
theorem C7_table_resolution (database : String) (m y : Int) (h2 : 2 ≤ m)
    (tables : String → Option (List LogRow)) (rows : List LogRow) (c : Int)
    (hcur : tables (table_name database m y) = none)
    (hfb : tables (table_name database (m - 1) y) = some rows)
    (env : RunEnv) (db0 : List Checkin) (c0 : Int)
    (hNcur : env.tables (table_name env.database env.month env.year) = none)
    (hNfb : env.tables (table_name env.database
      (fallback_period env.month env.year).1
      (fallback_period env.month env.year).2) = none) :
    fallback_period 1 y = (12, y - 1) ∧
    fallback_period m y = (m - 1, y) ∧
    resolve_and_fetch tables database m y c = some (fetch_all_logs rows c) ∧
    attendance env db0 c0 = ⟨db0, c0⟩ := by
  have hm1 : m ≠ 1 := by omega
  refine ⟨by simp [fallback_period], by simp [fallback_period, hm1], ?_, ?_⟩
  · simp [resolve_and_fetch, hcur, fallback_period, hm1, hfb]
  · simp [attendance, resolve_and_fetch, hNcur, hNfb]

/-- Witness for C7 at concrete inputs: May 2025 with only the April table
reachable, and an environment where no table is reachable at all. -/
theorem C7_table_resolution_witness :
    (2 : Int) ≤ 5 ∧
    (fun s => if s = table_name "D" 4 2025 then some ([] : List LogRow)
      else none) (table_name "D" 5 2025) = none ∧
    (fun s => if s = table_name "D" 4 2025 then some ([] : List LogRow)
      else none) (table_name "D" (5 - 1) 2025) = some [] ∧
    (⟨empsW, fun _ => none, "D", 5, 2025, 0⟩ : RunEnv).tables
      (table_name "D" 5 2025) = none ∧
    (⟨empsW, fun _ => none, "D", 5, 2025, 0⟩ : RunEnv).tables
      (table_name "D" (fallback_period 5 2025).1 (fallback_period 5 2025).2)
      = none ∧
    (fallback_period 1 2025 = (12, 2025 - 1) ∧
     fallback_period 5 2025 = (5 - 1, 2025) ∧
     resolve_and_fetch
       (fun s => if s = table_name "D" 4 2025 then some ([] : List LogRow)
         else none) "D" 5 2025 0 = some (fetch_all_logs [] 0) ∧
     attendance ⟨empsW, fun _ => none, "D", 5, 2025, 0⟩ [] 0 = ⟨[], 0⟩) :=
  ⟨by decide, by decide, by decide, by decide, by decide,
   C7_table_resolution "D" 5 2025 (by decide)
     (fun s => if s = table_name "D" 4 2025 then some [] else none) [] 0
     (by decide) (by decide) ⟨empsW, fun _ => none, "D", 5, 2025, 0⟩ [] 0
     (by decide) (by decide)⟩

/-! Extension order on checkin stores, used for the idempotency and
monotonicity arguments: the engine only ever appends records. -/

/-- The second store extends the first by appending records at the end. -/
def dbExtends (db db' : List Checkin) : Prop := ∃ ext, db' = db ++ ext

theorem dbExtends_refl (db : List Checkin) : dbExtends db db := ⟨[], by simp⟩

theorem dbExtends_trans {a b c : List Checkin} (h1 : dbExtends a b)
    (h2 : dbExtends b c) : dbExtends a c := by
  obtain ⟨e1, rfl⟩ := h1
  obtain ⟨e2, rfl⟩ := h2
  exact ⟨e1 ++ e2, by simp⟩

theorem mem_of_dbExtends {c : Checkin} {db db' : List Checkin} (h : c ∈ db)
    (he : dbExtends db db') : c ∈ db' := by
  obtain ⟨ext, rfl⟩ := he
  exact List.mem_append_left _ h

theorem checkinExists_of_mem {c : Checkin} {db : List Checkin} (h : c ∈ db) :
    checkinExists db c.employee c.time = true := by
  simp only [checkinExists, List.any_eq_true]
  exact ⟨c, h, by simp⟩

theorem checkinExists_mono {db db' : List Checkin} {e : String} {t : Int}
    (h : checkinExists db e t = true) (he : dbExtends db db') :
    checkinExists db' e t = true := by
  obtain ⟨ext, rfl⟩ := he
  simp only [checkinExists, List.any_append, Bool.or_eq_true]
  exact Or.inl h

theorem lastCheckin_append (db ext : List Checkin) (e : String) :
    lastCheckin (db ++ ext) e = ext.foldl (lastStep e) (lastCheckin db e) := by
  simp [lastCheckin, List.foldl_append]

theorem foldl_lastStep_time_mono (e : String) :
    ∀ (ext : List Checkin) (b : Checkin),
      ∃ b', ext.foldl (lastStep e) (some b) = some b' ∧ b.time ≤ b'.time := by
  intro ext
  induction ext with
  | nil => exact fun b => ⟨b, rfl, le_refl _⟩
  | cons c cs ih =>
    intro b
    simp only [List.foldl_cons]
    by_cases hc : c.employee = e
    · by_cases ht : b.time < c.time
      · obtain ⟨b', h1, h2⟩ := ih c
        exact ⟨b', by simp [lastStep, hc, ht, h1], le_trans (le_of_lt ht) h2⟩
      · obtain ⟨b', h1, h2⟩ := ih b
        exact ⟨b', by simp [lastStep, hc, ht, h1], h2⟩
    · obtain ⟨b', h1, h2⟩ := ih b
      exact ⟨b', by simp [lastStep, hc, h1], h2⟩

/-- Extending the store can only move the most recent record of an
employee to a later punch time, never to an earlier one. -/
theorem lastCheckin_mono {db db' : List Checkin} {e : String} {l : Checkin}
    (h : lastCheckin db e = some l) (he : dbExtends db db') :
    ∃ l', lastCheckin db' e = some l' ∧ l.time ≤ l'.time := by
  obtain ⟨ext, rfl⟩ := he
  rw [lastCheckin_append, h]
  exact foldl_lastStep_time_mono e ext l

/-- Case analysis of the guard: either it skips, and then a duplicate
record exists or the most recent record is within the debounce window,
or it creates, and then no duplicate exists. -/
theorem create_spec (db : List Checkin) (e : String) (t : Int) (d : String) :
    (create_employee_checkin db e (some t) d = (db, false) ∧
      (checkinExists db e t = true ∨
       ∃ l, lastCheckin db e = some l ∧ t - l.time < debounce_usec)) ∨
    (create_employee_checkin db e (some t) d =
        (db ++ [⟨e, t, pyUpper d⟩], true) ∧
      checkinExists db e t = false) := by
  by_cases hex : checkinExists db e t = true
  · exact Or.inl ⟨by simp [create_employee_checkin, hex], Or.inl hex⟩
  · simp only [Bool.not_eq_true] at hex
    cases hl : lastCheckin db e with
    | none => exact Or.inr ⟨by simp [create_employee_checkin, hex, hl], hex⟩
    | some l =>
      by_cases hw : t - l.time < debounce_usec
      · exact Or.inl ⟨by simp [create_employee_checkin, hex, hl, hw],
          Or.inr ⟨l, rfl, hw⟩⟩
      · exact Or.inr ⟨by simp [create_employee_checkin, hex, hl, hw], hex⟩

/-- When the guard skips at a store, it also skips at every extension of
that store, whatever direction is being inferred there: a duplicate stays
a duplicate, and the most recent record only gets closer to the punch. -/
theorem create_skip_mono {db db' : List Checkin} {e : String} {t : Int}
    {d d' : String} (he : dbExtends db db')
    (h : (create_employee_checkin db e (some t) d).2 = false) :
    create_employee_checkin db' e (some t) d' = (db', false) := by
  rcases create_spec db e t d with ⟨heq, hreason⟩ | ⟨heq, _⟩
  · rcases hreason with hex | ⟨l, hl, hw⟩
    · have hex' := checkinExists_mono hex he
      simp [create_employee_checkin, hex']
    · by_cases hex' : checkinExists db' e t = true
      · simp [create_employee_checkin, hex']
      · simp only [Bool.not_eq_true] at hex'
        obtain ⟨l', hl', hle⟩ := lastCheckin_mono hl he
        have hw' : t - l'.time < debounce_usec := by omega
        simp [create_employee_checkin, hex', hl', hw']
  · rw [heq] at h
    simp at h

theorem create_created_mem {db : List Checkin} {e : String} {t : Int}
    {d : String} (h : (create_employee_checkin db e (some t) d).2 = true) :
    (⟨e, t, pyUpper d⟩ : Checkin) ∈ (create_employee_checkin db e (some t) d).1 := by
  rcases create_spec db e t d with ⟨heq, _⟩ | ⟨heq, _⟩
  · rw [heq] at h
    simp at h
  · rw [heq]
    simp

theorem create_extends (db : List Checkin) (e : String) (ot : Option Int)
    (d : String) : dbExtends db (create_employee_checkin db e ot d).1 := by
  cases ot with
  | none => exact dbExtends_refl db
  | some t =>
    rcases create_spec db e t d with ⟨heq, _⟩ | ⟨heq, _⟩
    · rw [heq]
      exact dbExtends_refl db
    · rw [heq]
      exact ⟨[⟨e, t, pyUpper d⟩], rfl⟩

/-- Effect of one row on the checkin store alone. -/
def rowdb (emps : String → Option String) (db : List Checkin)
    (row : LogRow) : List Checkin :=
  match emps row.user_id with
  | none => db
  | some employee_id =>
    (create_employee_checkin db employee_id (some row.log_date)
      (guess_checkin_type emps db row.user_id (pyLower (row.c1.getD "")))).1

theorem process_row_db (emps : String → Option String) (s : ProcState)
    (row : LogRow) : (process_row emps s row).db = rowdb emps s.db row := by
  simp only [process_row, rowdb]
  cases h : emps row.user_id with
  | none => simp
  | some eid =>
    simp only []
    split <;> rfl

theorem process_logs_db (emps : String → Option String) (db : List Checkin)
    (logs : List LogRow) :
    (process_logs emps db logs).db = logs.foldl (rowdb emps) db := by
  suffices h : ∀ s : ProcState,
      (List.foldl (process_row emps) s logs).db =
        logs.foldl (rowdb emps) s.db by
    exact h ⟨db, none, 0, 0⟩
  induction logs with
  | nil => intro s; rfl
  | cons r rest ih =>
    intro s
    rw [List.foldl_cons, List.foldl_cons, ih, process_row_db]

theorem rowdb_extends (emps : String → Option String) (db : List Checkin)
    (row : LogRow) : dbExtends db (rowdb emps db row) := by
  unfold rowdb
  cases emps row.user_id with
  | none => exact dbExtends_refl db
  | some eid => exact create_extends ..

theorem foldl_rowdb_extends (emps : String → Option String) :
    ∀ (logs : List LogRow) (db : List Checkin),
      dbExtends db (logs.foldl (rowdb emps) db) := by
  intro logs
  induction logs with
  | nil => exact fun db => dbExtends_refl db
  | cons r rest ih =>
    intro db
    rw [List.foldl_cons]
    exact dbExtends_trans (rowdb_extends emps db r) (ih (rowdb emps db r))

/-- If a store already extends the result of pushing a row through some
earlier store, pushing the same row again changes nothing: either the
row created a record then, and the exists guard now rejects it, or it
was skipped then, and the skip reason still applies. -/
theorem rowdb_stable {emps : String → Option String} {db0 D : List Checkin}
    {row : LogRow} (he : dbExtends (rowdb emps db0 row) D) :
    rowdb emps D row = D := by
  unfold rowdb at he ⊢
  cases h : emps row.user_id with
  | none => rfl
  | some eid =>
    rw [h] at he
    dsimp only at he ⊢
    by_cases hc : (create_employee_checkin db0 eid (some row.log_date)
        (guess_checkin_type emps db0 row.user_id (pyLower (row.c1.getD "")))).2 = true
    · have hmem := create_created_mem hc
      have hmem' := mem_of_dbExtends hmem he
      have hex : checkinExists D eid row.log_date = true :=
        checkinExists_of_mem hmem'
      simp [create_employee_checkin, hex]
    · simp only [Bool.not_eq_true] at hc
      have hdb0 : dbExtends db0 D :=
        dbExtends_trans (create_extends ..) he
      rw [create_skip_mono hdb0 hc]

/-- Replaying a batch over a store that already contains its outcome is
a no-op on the store. -/
theorem foldl_rowdb_idem (emps : String → Option String) :
    ∀ (logs : List LogRow) (db0 D : List Checkin),
      dbExtends (logs.foldl (rowdb emps) db0) D →
      logs.foldl (rowdb emps) D = D := by
  intro logs
  induction logs with
  | nil => intro db0 D _; rfl
  | cons r rest ih =>
    intro db0 D h
    rw [List.foldl_cons] at h ⊢
    have hr : dbExtends (rowdb emps db0 r) D :=
      dbExtends_trans (foldl_rowdb_extends emps rest (rowdb emps db0 r)) h
    rw [rowdb_stable hr]
    exact ih (rowdb emps db0 r) D h

/-- The store produced by one run, as a function of the fetched logs. -/
theorem attendance_db (env : RunEnv) (db : List Checkin) (c : Int) :
    (attendance env db c).db =
      (match resolve_and_fetch env.tables env.database env.month env.year
          (validate_or_default_sync_time env.now (.dtVal c) 2) with
      | none => db
      | some logs =>
        if logs.isEmpty then db
        else logs.foldl (rowdb env.employees) db) := by
  unfold attendance
  cases hres : resolve_and_fetch env.tables env.database env.month env.year
      (validate_or_default_sync_time env.now (.dtVal c) 2) with
  | none => simp [hres]
  | some logs =>
    by_cases hemp : logs.isEmpty
    · simp [hres, hemp]
    · simp only [hres, hemp, if_false]
      split <;> simp [process_logs_db]
      split <;> rfl

/-- Claim C6: no CheckinEvent is ever created for an (employee, time)
pair that already has one, and replaying the same source rows against
the same starting cursor a second time creates no additional
CheckinEvents beyond those of the first run. -/
theorem C6_idempotent_replay (env : RunEnv) (db0 : List Checkin) (c0 : Int)
    (db : List Checkin) (e : String) (t : Int) (d : String)
    (hex : checkinExists db e t = true) :
    create_employee_checkin db e (some t) d = (db, false) ∧
    (attendance env (attendance env db0 c0).db c0).db =
      (attendance env db0 c0).db := by
  constructor
  · simp [create_employee_checkin, hex]
  · rw [attendance_db, attendance_db]
    cases hres : resolve_and_fetch env.tables env.database env.month env.year
        (validate_or_default_sync_time env.now (.dtVal c0) 2) with
    | none => rfl
    | some logs =>
      by_cases hemp : logs.isEmpty
      · simp [hemp]
      · simp only [hemp, if_false]
        exact foldl_rowdb_idem env.employees logs db0 _ (dbExtends_refl _)

/-- A concrete run environment used by the specification witnesses: one
reachable table with two rows inside the debounce window. -/
def envW : RunEnv :=
  ⟨empsW,
   fun s => if s = table_name "D" 5 2025
     then some [⟨"u1", 100, none⟩, ⟨"u1", 200, none⟩] else none,
   "D", 5, 2025, 0⟩

/-- Witness for C6 at concrete inputs: a store holding the exact record,
and a full replay of a two-row batch. -/
theorem C6_idempotent_replay_witness :
    checkinExists [⟨"EMP-0001", 0, "IN"⟩] "EMP-0001" 0 = true ∧
    (create_employee_checkin [⟨"EMP-0001", 0, "IN"⟩] "EMP-0001" (some 0)
        "IN" = ([⟨"EMP-0001", 0, "IN"⟩], false) ∧
     (attendance envW (attendance envW [] 0).db 0).db =
       (attendance envW [] 0).db) :=
  ⟨by decide,
   C6_idempotent_replay envW [] 0 [⟨"EMP-0001", 0, "IN"⟩] "EMP-0001" 0 "IN"
     (by decide)⟩

/-! Cursor monotonicity machinery. -/

theorem usecPerSec_pos : (0 : Int) < usecPerSec := by decide

theorem truncToSecond_aligned (t : Int) : secAligned (truncToSecond t) := by
  simp only [truncToSecond, secAligned]
  exact Int.mul_emod_left _ _

/-- Flooring to a whole second never drops below a second-aligned lower
bound. -/
theorem le_truncToSecond {c m : Int} (hc : secAligned c) (h : c ≤ m) :
    c ≤ truncToSecond m := by
  have hd : usecPerSec ∣ c := Int.dvd_of_emod_eq_zero hc
  have h1 : c / usecPerSec ≤ m / usecPerSec :=
    Int.ediv_le_ediv usecPerSec_pos h
  have h2 : c / usecPerSec * usecPerSec = c := Int.ediv_mul_cancel hd
  calc c = c / usecPerSec * usecPerSec := h2.symm
    _ ≤ m / usecPerSec * usecPerSec :=
        mul_le_mul_of_nonneg_right h1 (le_of_lt usecPerSec_pos)
    _ = truncToSecond m := rfl

/-- The watermark fold stays strictly above a bound that every row and
the starting accumulator exceed. -/
theorem foldl_maxUpd_gt (b : Int) :
    ∀ (logs : List LogRow) (acc : Option Int),
      (∀ r ∈ logs, b < r.log_date) → (∀ x, acc = some x → b < x) →
      ∀ m, logs.foldl (fun a r => maxUpd a r.log_date) acc = some m → b < m := by
  intro logs
  induction logs with
  | nil => exact fun acc _ hacc m hm => hacc m hm
  | cons r rest ih =>
    intro acc hmem hacc m hm
    rw [List.foldl_cons] at hm
    refine ih (maxUpd acc r.log_date)
      (fun x hx => hmem x (List.mem_cons_of_mem _ hx)) ?_ m hm
    intro x hx
    cases hc : acc with
    | none =>
      rw [hc] at hx
      simp only [maxUpd, Option.some.injEq] at hx
      subst hx
      exact hmem r (List.mem_cons_self r rest)
    | some a =>
      rw [hc] at hx
      simp only [maxUpd] at hx
      split at hx <;> simp only [Option.some.injEq] at hx <;> subst hx
      · exact hmem r (List.mem_cons_self r rest)
      · exact hacc a hc

theorem process_row_max (emps : String → Option String) (s : ProcState)
    (row : LogRow) :
    (process_row emps s row).max_log_date = maxUpd s.max_log_date row.log_date := by
  simp only [process_row]
  cases h : emps row.user_id with
  | none => simp
  | some eid =>
    simp only []
    split <;> rfl

theorem process_logs_max (emps : String → Option String) (db : List Checkin)
    (logs : List LogRow) :
    (process_logs emps db logs).max_log_date =
      logs.foldl (fun a r => maxUpd a r.log_date) none := by
  suffices h : ∀ s : ProcState,
      (List.foldl (process_row emps) s logs).max_log_date =
        logs.foldl (fun a r => maxUpd a r.log_date) s.max_log_date by
    exact h ⟨db, none, 0, 0⟩
  induction logs with
  | nil => intro s; rfl
  | cons r rest ih =>
    intro s
    rw [List.foldl_cons, List.foldl_cons, ih, process_row_max]

theorem mem_insertLog {x r : LogRow} : ∀ {l : List LogRow},
    x ∈ insertLog r l ↔ x = r ∨ x ∈ l := by
  intro l
  induction l with
  | nil => simp [insertLog]
  | cons y ys ih =>
    simp only [insertLog]
    split
    · simp [List.mem_cons]
    · simp only [List.mem_cons, ih]
      tauto

theorem mem_sortLogs {x : LogRow} : ∀ {l : List LogRow},
    x ∈ sortLogs l ↔ x ∈ l := by
  intro l
  induction l with
  | nil => simp [sortLogs]
  | cons y ys ih =>
    simp only [sortLogs, mem_insertLog, List.mem_cons, ih]

/-- Every fetched row lies strictly above the fetch bound. -/
theorem fetch_all_logs_gt {rows : List LogRow} {b : Int} :
    ∀ r ∈ fetch_all_logs rows b, b < r.log_date := by
  intro r hr
  rw [fetch_all_logs, mem_sortLogs, List.mem_filter] at hr
  exact of_decide_eq_true hr.2

/-- Rows delivered by the resolution step all lie strictly above the
fetch bound, whichever table they came from. -/
theorem resolve_and_fetch_gt {tables : String → Option (List LogRow)}
    {database : String} {month year : Int} {b : Int} {logs : List LogRow}
    (h : resolve_and_fetch tables database month year b = some logs) :
    ∀ r ∈ logs, b < r.log_date := by
  simp only [resolve_and_fetch] at h
  cases h1 : tables (table_name database month year) with
  | some rows =>
    rw [h1] at h
    simp only [Option.some.injEq] at h
    subst h
    exact fetch_all_logs_gt
  | none =>
    rw [h1] at h
    cases h2 : tables (table_name database
        (fallback_period month year).1 (fallback_period month year).2) with
    | some rows =>
      rw [h2] at h
      simp only [Option.some.injEq] at h
      subst h
      exact fetch_all_logs_gt
    | none =>
      rw [h2] at h
      simp at h

/-- Sanitizing a stored datetime value never moves it down. -/
theorem validate_dt_ge (now c : Int) :
    c ≤ validate_or_default_sync_time now (.dtVal c) 2 := by
  simp only [validate_or_default_sync_time]
  split <;> omega

/-- The cursor produced by one run, as a function of the fetched logs. -/
theorem attendance_cursor (env : RunEnv) (db : List Checkin) (c : Int) :
    (attendance env db c).cursor =
      (match resolve_and_fetch env.tables env.database env.month env.year
          (validate_or_default_sync_time env.now (.dtVal c) 2) with
      | none => c
      | some logs =>
        if logs.isEmpty then c
        else
          match (process_logs env.employees db logs).max_log_date with
          | none => c
          | some m => truncToSecond m) := by
  unfold attendance
  cases hres : resolve_and_fetch env.tables env.database env.month env.year
      (validate_or_default_sync_time env.now (.dtVal c) 2) with
  | none => simp [hres]
  | some logs =>
    by_cases hemp : logs.isEmpty
    · simp [hres, hemp]
    · simp only [hres, hemp, if_false]
      cases hmax : (process_logs env.employees db logs).max_log_date <;>
        simp [hmax]

/-- One completed run never moves a second-aligned cursor down, and
leaves it second-aligned. -/
theorem attendance_cursor_mono (env : RunEnv) (db : List Checkin) {c : Int}
    (hc : secAligned c) :
    c ≤ (attendance env db c).cursor ∧
      secAligned (attendance env db c).cursor := by
  rw [attendance_cursor]
  cases hres : resolve_and_fetch env.tables env.database env.month env.year
      (validate_or_default_sync_time env.now (.dtVal c) 2) with
  | none => exact ⟨le_refl c, hc⟩
  | some logs =>
    by_cases hemp : logs.isEmpty
    · simp only [hemp, if_true]
      exact ⟨le_refl c, hc⟩
    · simp only [hemp, if_false]
      cases hmax : (process_logs env.employees db logs).max_log_date with
      | none => exact ⟨le_refl c, hc⟩
      | some m =>
        have hcb := validate_dt_ge env.now c
        have hgt : c < m := by
          rw [process_logs_max] at hmax
          have := foldl_maxUpd_gt _ logs none (resolve_and_fetch_gt hres)
            (by simp) m hmax
          omega
        exact ⟨le_truncToSecond hc (le_of_lt hgt), truncToSecond_aligned m⟩

theorem run_step_cursor_mono {st : RunState} (hc : secAligned st.cursor)
    (r : RunSpec) :
    st.cursor ≤ (run_step st r).cursor ∧ secAligned (run_step st r).cursor := by
  cases r with
  | aborted => exact ⟨le_refl _, hc⟩
  | completed env => exact attendance_cursor_mono env st.db hc

theorem foldl_run_step_mono :
    ∀ (runs : List RunSpec) (st : RunState), secAligned st.cursor →
      st.cursor ≤ (List.foldl run_step st runs).cursor ∧
        secAligned (List.foldl run_step st runs).cursor := by
  intro runs
  induction runs with
  | nil => exact fun st hc => ⟨le_refl _, hc⟩
  | cons r rest ih =>
    intro st hc
    rw [List.foldl_cons]
    obtain ⟨h1, h2⟩ := run_step_cursor_mono hc r
    obtain ⟨h3, h4⟩ := ih (run_step st r) h2
    exact ⟨le_trans h1 h3, h4⟩

/-- Claim C3: across any sequence of runs, each either aborted (cursor
untouched) or completed, the persisted cursor after run n+1 is at least
the cursor after run n, starting from any second-aligned stored value.
Completed runs move the cursor to the truncated maximum log date of the
fetched rows, all of which lie strictly above the old cursor; runs that
abort, resolve no table or fetch nothing leave it unchanged. -/
theorem C3_cursor_monotone (runs : List RunSpec) (st0 : RunState)
    (h : secAligned st0.cursor) (n : Nat) :
    (List.foldl run_step st0 (runs.take n)).cursor ≤
      (List.foldl run_step st0 (runs.take (n + 1))).cursor := by
  rw [List.take_succ, List.foldl_append]
  have hal := (foldl_run_step_mono (runs.take n) st0 h).2
  cases hget : runs[n]? with
  | none => simp
  | some r =>
    simp only [hget, Option.toList_some, List.foldl_cons, List.foldl_nil]
    exact (run_step_cursor_mono hal r).1

/-- Witness for C3 at concrete inputs: one completed run under a
reachable table followed by an aborted run. -/
theorem C3_cursor_monotone_witness :
    secAligned ((⟨[], 0⟩ : RunState).cursor) ∧
    (List.foldl run_step ⟨[], 0⟩
        ([RunSpec.completed envW, RunSpec.aborted].take 0)).cursor ≤
      (List.foldl run_step ⟨[], 0⟩
        ([RunSpec.completed envW, RunSpec.aborted].take (0 + 1))).cursor :=
  ⟨by decide,
   C3_cursor_monotone [RunSpec.completed envW, RunSpec.aborted] ⟨[], 0⟩
     (by decide) 0⟩

end AttendanceSync
